import Mathlib

namespace GoGoTry

/-- Model of a JavaScript runtime value, covering the shapes this library
inspects: `undefined`, `null`, booleans, numbers, strings, functions, plain
objects (with a flag recording whether the real object graph is circular,
which a well-founded inductive value cannot represent directly), and `Error`
instances (constructor name, optional string `_tag` discriminant, `message`,
optional `cause`). -/
inductive JSVal where
  | undef
  | jsNull
  | jsBool (b : Bool)
  | jsNum (n : Int)
  | jsStr (s : String)
  | jsFun
  | jsObj (fields : List (String × JSVal)) (circular : Bool)
  | jsErr (name : String) (tag : Option String) (message : String) (cause : Option JSVal)

/-- Outcome of one call to the platform function JSON.stringify: a string,
the value `undefined` (returned for functions and for `undefined` itself),
or a thrown TypeError (circular structure). -/
inductive SRes where
  | ok (s : String)
  | undefR
  | thrown

/-- Minimal JSON string quoting (escapes backslash and double quote). -/
def jsonQuote (s : String) : String :=
  "\"" ++ (s.foldl (fun acc c =>
    if c = '\\' then acc ++ "\\\\"
    else if c = '"' then acc ++ "\\\""
    else acc.push c) "") ++ "\""

mutual

/-- Model of JSON.stringify on a single value: `undefined` and functions
serialize to the value `undefined`; a circular object graph throws; `Error`
instances have no enumerable own properties and serialize to an empty
object. -/
def stringifyVal : JSVal → SRes
  | .undef => .undefR
  | .jsFun => .undefR
  | .jsNull => .ok "null"
  | .jsBool b => .ok (cond b "true" "false")
  | .jsNum n => .ok (toString n)
  | .jsStr s => .ok (jsonQuote s)
  | .jsErr _ _ _ _ => .ok "\x7b\x7d"
  | .jsObj fields circular =>
      if circular then .thrown
      else
        match stringifyFields fields with
        | none => .thrown
        | some parts => .ok ("\x7b" ++ String.intercalate "," parts ++ "\x7d")

/-- Model of JSON.stringify on an object's fields: fields whose value
serializes to `undefined` are skipped; a throw from any field propagates. -/
def stringifyFields : List (String × JSVal) → Option (List String)
  | [] => some []
  | (k, v) :: rest =>
      match stringifyVal v, stringifyFields rest with
      | .thrown, _ => none
      | _, none => none
      | .undefR, some parts => some parts
      | .ok s, some parts => some ((jsonQuote k ++ ":" ++ s) :: parts)

end

/-- Model of the platform String(v) conversion. -/
def jsToString : JSVal → String
  | .undef => "undefined"
  | .jsNull => "null"
  | .jsBool b => cond b "true" "false"
  | .jsNum n => toString n
  | .jsStr s => s
  | .jsFun => "function"
  | .jsObj _ _ => "[object Object]"
  | .jsErr name _ msg _ => if msg = "" then name else name ++ ": " ++ msg

/-- Property lookup on an object field list (first match wins), modelling
the JS membership test together with the subsequent read. -/
def lookupField : List (String × JSVal) → String → Option JSVal
  | [], _ => none
  | (k, v) :: rest, key => if k = key then some v else lookupField rest key

/-- Models the source test combination
typeof error === 'object' && error !== null && 'message' in error &&
typeof error.message === 'string', returning the message when it applies.
A function value has typeof 'function', so it never satisfies this test;
an Error instance always carries its string message property. -/
def messageField : JSVal → Option String
  | .jsErr _ _ msg _ => some msg
  | .jsObj fields _ =>
      match lookupField fields "message" with
      | some (.jsStr m) => some m
      | _ => none
  | _ => none

/-- Embedding of getErrorMessage from src/src/internals.ts. The branches
mirror the source in order: undefined, string, object with a string message
field, JSON.stringify with a String() fallback when stringification throws.
The result is a JS value because JSON.stringify can itself return the value
undefined (for a function), in which case the source returns undefined in
spite of its declared string return type. -/
def getErrorMessage (error : JSVal) : JSVal :=
  match error with
  | .undef => .jsStr "undefined"
  | .jsStr s => .jsStr s
  | e =>
      match messageField e with
      | some m => .jsStr m
      | none =>
          match stringifyVal e with
          | .ok s => .jsStr s
          | .undefR => .undef
          | .thrown => .jsStr (jsToString e)

/-- Terminal outcome of one slot's asynchronous computation, mirroring
PromiseSettledResult: fulfilled with a value or rejected with a reason. -/
inductive Settlement where
  | fulfilled (value : JSVal)
  | rejected (reason : JSVal)

/-- Behaviour of a zero-argument factory when it is invoked: either it
throws synchronously, or it returns a promise that settles with the given
outcome. -/
inductive FactoryBehavior where
  | fthrows (reason : JSVal)
  | freturns (outcome : Settlement)

/-- One element of the input collection of runWithConcurrency: either an
already-started promise with a predetermined settlement, or a factory
function. -/
inductive BatchItem where
  | promiseItem (outcome : Settlement)
  | factoryItem (behavior : FactoryBehavior)

/-- Embedding of the mode auto-detection
typeof items[0] === 'function' from src/src/goTryAll.ts: only a factory
item is a function. -/
def isFactoryMode : List BatchItem → Bool
  | .factoryItem _ :: _ => true
  | _ => false

/-- The TypeError thrown when factory mode calls a non-function element. -/
def typeErrorNotAFunction : JSVal :=
  .jsErr "TypeError" none "item is not a function" none

/-- Settlement recorded for one item by the worker body's try/catch, given
the detected mode. In factory mode a synchronous throw from the factory and
a rejection of the returned promise are caught by the same catch clause and
both become a rejected settlement; calling a non-function element throws a
TypeError which that catch also captures. Outside factory mode, awaiting a
function value yields the function itself as a fulfilled value. -/
def settleItem (factoryMode : Bool) : BatchItem → Settlement
  | .promiseItem o => if factoryMode then .rejected typeErrorNotAFunction else o
  | .factoryItem b =>
      if factoryMode then
        match b with
        | .fthrows r => .rejected r
        | .freturns o => o
      else .fulfilled .jsFun

/-- Model of the platform primitive Promise.allSettled: each element is
resolved (a non-thenable such as a function fulfils with itself) and its
settlement is reported in input order. This coincides with awaiting each
element directly, i.e. with settleItem in non-factory mode. -/
def promiseAllSettled (items : List BatchItem) : List Settlement :=
  items.map (settleItem false)

/-- Embedding of the worker-count computation from src/src/goTryAll.ts:
concurrency <= 0 ? items.length : Math.min(concurrency, items.length). -/
def workerCount (concurrency : Int) (len : Nat) : Nat :=
  if concurrency ≤ 0 then len else min concurrency.toNat len

/-- Denotation of runWithConcurrency from src/src/goTryAll.ts: empty input
returns immediately; pre-started input with concurrency <= 0 takes the
Promise.allSettled fast path; otherwise the worker pool settles every slot
with settleItem (the worker-pool step relation below is proved to produce
exactly this settlement list in order). -/
def runWithConcurrency (items : List BatchItem) (concurrency : Int) : List Settlement :=
  if items.length = 0 then []
  else
    let factoryMode := isFactoryMode items
    if factoryMode = false ∧ concurrency ≤ 0 then promiseAllSettled items
    else items.map (settleItem factoryMode)

/-- Model of an error constructor class (the ErrorConstructor type of the
source): its runtime name and the string discriminant its instances carry,
if any. A class produced by taggedError carries its tag. -/
structure ErrCtor where
  name : String
  tag : Option String

/-- Instantiating an error class: new C(message, \x7b cause \x7d) produces an
Error instance of that class. Embedding of the TaggedErrorClass constructor
in src/src/tagged-error.ts (and of a plain Error subclass when the class
carries no tag). -/
def construct (C : ErrCtor) (message : String) (cause : Option JSVal) : JSVal :=
  .jsErr C.name C.tag message cause

/-- Embedding of taggedError from src/src/tagged-error.ts: a class whose
instances carry the given string tag as their _tag discriminant and name. -/
def taggedError (tag : String) : ErrCtor :=
  ⟨tag, some tag⟩

/-- Embedding of UnknownError from src/index.ts:
export const UnknownError = taggedError('UnknownError') — the built-in
generic tagged class used as the default system error class, whose
instances carry _tag and name "UnknownError". -/
def UnknownError : ErrCtor :=
  taggedError "UnknownError"

/-- Embedding of isError from src/src/internals.ts: value instanceof Error. -/
def isErrorVal : JSVal → Bool
  | .jsErr _ _ _ _ => true
  | _ => false

/-- Embedding of isTaggedError from src/src/goTryAll.ts: an Error instance
with a string _tag property. -/
def isTaggedErrorVal : JSVal → Bool
  | .jsErr _ (some _) _ _ => true
  | _ => false

/-- The message property of an Error instance (used by wrapError after the
isError test). -/
def errorMessage : JSVal → String
  | .jsErr _ _ msg _ => msg
  | v => jsToString v

/-- Embedding of wrapError from src/src/goTryAll.ts: with errorClass, wrap
every reason in it (cause preserved only for Error reasons); otherwise pass
tagged errors through and wrap the rest in systemErrorClass, defaulting to
UnknownError. -/
def wrapError (err : JSVal) (errorClass systemErrorClass : Option ErrCtor) : JSVal :=
  match errorClass with
  | some C =>
      match err with
      | .undef => construct C "undefined" none
      | e =>
          if isErrorVal e then construct C (errorMessage e) (some e)
          else construct C (jsToString e) none
  | none =>
      let S := systemErrorClass.getD UnknownError
      if isTaggedErrorVal err then err
      else
        match err with
        | .undef => construct S "undefined" none
        | e =>
            if isErrorVal e then construct S (errorMessage e) (some e)
            else construct S (jsToString e) none

/-- The errors output of goTryAll assembled from the settlement list
(src/src/goTryAll.ts lines 131-140): a fulfilled slot stores undefined, a
rejected slot stores getErrorMessage of its reason. -/
def settledErrors (settled : List Settlement) : List JSVal :=
  settled.map fun s =>
    match s with
    | .fulfilled _ => .undef
    | .rejected r => getErrorMessage r

/-- The results output of goTryAll and goTryAllRaw assembled from the
settlement list: a fulfilled slot stores its value, a rejected slot stores
undefined. -/
def settledValues (settled : List Settlement) : List JSVal :=
  settled.map fun s =>
    match s with
    | .fulfilled v => v
    | .rejected _ => (.undef)

/-- Embedding of goTryAll from src/src/goTryAll.ts: run the batch, then
walk the settlements once producing the [errors, results] pair. -/
def goTryAll (items : List BatchItem) (concurrency : Int) : List JSVal × List JSVal :=
  let settled := runWithConcurrency items concurrency
  (settledErrors settled, settledValues settled)

/-- Embedding of goTryAllRaw from src/src/goTryAll.ts: like goTryAll but a
rejected slot stores wrapError of its reason, honouring the errorClass and
systemErrorClass options. -/
def goTryAllRaw (items : List BatchItem) (concurrency : Int)
    (errorClass systemErrorClass : Option ErrCtor) : List JSVal × List JSVal :=
  let settled := runWithConcurrency items concurrency
  (settled.map fun s =>
    match s with
    | .fulfilled _ => .undef
    | .rejected r => wrapError r errorClass systemErrorClass,
   settledValues settled)

/-- Embedding of isSuccess from src/src/result-helpers.ts:
result[0] === undefined. -/
def isSuccess (r : JSVal × JSVal) : Bool :=
  match r.1 with
  | .undef => true
  | _ => false

/-- Embedding of isFailure from src/src/result-helpers.ts:
result[0] !== undefined. -/
def isFailure (r : JSVal × JSVal) : Bool :=
  match r.1 with
  | .undef => false
  | _ => true

/-- Embedding of success from src/src/result-helpers.ts. -/
def success (v : JSVal) : JSVal × JSVal :=
  (.undef , v)

/-- Embedding of failure from src/src/result-helpers.ts. -/
def failure (e : JSVal) : JSVal × JSVal :=
  (e, .undef)

/-- The defaultValue argument of goTryOr: a plain value, or a zero-argument
function producing a value when invoked. -/
inductive DefaultValue where
  | plain (v : JSVal)
  | thunk (v : JSVal)

/-- Embedding of resolveDefault from src/src/internals.ts:
typeof defaultValue === 'function' ? defaultValue() : defaultValue. -/
def resolveDefault : DefaultValue → JSVal
  | .plain v => v
  | .thunk v => v

/-- Number of times resolving the default invokes it as a function (ghost
instrumentation for the laziness property). -/
def defaultInvocations : DefaultValue → Nat
  | .plain _ => 0
  | .thunk _ => 1

/-- Behaviour of a function passed as the first argument of goTry-style
wrappers: it throws synchronously, returns a plain value, or returns a
promise with a predetermined settlement. -/
inductive FnBehavior where
  | throws (reason : JSVal)
  | returns (v : JSVal)
  | returnsPromise (o : Settlement)

/-- The first argument of goTryOr: a plain (non-function, non-thenable)
value, a function, or an already-started promise. -/
inductive GoTryInput where
  | value (v : JSVal)
  | fn (b : FnBehavior)
  | promise (o : Settlement)

/-- Embedding of goTryOr from src/src/index.ts: the success paths return
[undefined, result] without touching the default; the synchronous catch and
the promise .catch both return [getErrorMessage(err), resolveDefault(d)].
The second component counts how many times a function default was invoked. -/
def goTryOr : GoTryInput → DefaultValue → (JSVal × JSVal) × Nat
  | .value v, _ => ((.undef , v), 0)
  | .fn (.returns v), _ => ((.undef , v), 0)
  | .fn (.throws r), d => ((getErrorMessage r, resolveDefault d), defaultInvocations d)
  | .fn (.returnsPromise (.fulfilled v)), _ => ((.undef , v), 0)
  | .fn (.returnsPromise (.rejected r)), d =>
      ((getErrorMessage r, resolveDefault d), defaultInvocations d)
  | .promise (.fulfilled v), _ => ((.undef , v), 0)
  | .promise (.rejected r), d =>
      ((getErrorMessage r, resolveDefault d), defaultInvocations d)

/-- State of one worker task of the pool over n input slots: about to test
the while condition (idle), awaiting the computation of a claimed slot
(running), or exited (done). -/
inductive WorkerState (n : Nat) where
  | idle
  | running (slot : Fin n)
  | done
deriving DecidableEq

/-- Whether a worker currently holds an in-flight computation. -/
def WorkerState.isRunning {n : Nat} : WorkerState n → Bool
  | .running _ => true
  | _ => false

/-- Parameters of one runWithConcurrency invocation: the input collection
and the concurrency option. -/
structure PoolParams where
  items : List BatchItem
  concurrency : Int

/-- The mode detected once from the first element. -/
def PoolParams.mode (P : PoolParams) : Bool :=
  isFactoryMode P.items

/-- Number of input slots. -/
def PoolParams.n (P : PoolParams) : Nat :=
  P.items.length

/-- Number of worker tasks the source launches. -/
def PoolParams.w (P : PoolParams) : Nat :=
  workerCount P.concurrency P.n

/-- The settlement a worker records for slot i, fixed by the item alone:
promises settle the same way whenever awaited, and a factory's behaviour is
fixed when it is invoked. -/
def PoolParams.settleAt (P : PoolParams) (i : Nat) : Settlement :=
  settleItem P.mode (P.items.getD i (.promiseItem (.fulfilled .undef)))

/-- State of the pool: the shared next-unclaimed-index cursor, each
worker's state, the settlement array, and a ghost per-slot write counter. -/
structure PoolState (P : PoolParams) where
  idx : Nat
  workers : Fin P.w → WorkerState P.n
  results : Fin P.n → Option Settlement
  writes : Fin P.n → Nat

/-- Initial pool state: cursor at 0, every launched worker idle, the
pre-sized settlement array empty, no slot written. -/
def initState (P : PoolParams) : PoolState P :=
  { idx := 0
    workers := fun _ => .idle
    results := fun _ => none
    writes := fun _ => 0 }

/-- One cooperative step of the pool, mirroring the worker loop of
src/src/goTryAll.ts. claim: an idle worker passes the while test and
atomically reads and increments the cursor (the read-increment contains no
suspension point, so it is a single step), starting slot idx. finish: a
running worker's computation settles and the try/catch records the
settlement at its claimed index, incrementing the ghost write counter.
exit: an idle worker fails the while test and returns. -/
inductive PoolStep (P : PoolParams) : PoolState P → PoolState P → Prop where
  | claim (s : PoolState P) (j : Fin P.w) (hidx : s.idx < P.n)
      (hj : s.workers j = .idle) :
      PoolStep P s
        { s with
          idx := s.idx + 1
          workers := Function.update s.workers j (.running ⟨s.idx, hidx⟩) }
  | finish (s : PoolState P) (j : Fin P.w) (i : Fin P.n)
      (hj : s.workers j = .running i) :
      PoolStep P s
        { s with
          workers := Function.update s.workers j .idle
          results := Function.update s.results i (some (P.settleAt i))
          writes := Function.update s.writes i (s.writes i + 1) }
  | exit (s : PoolState P) (j : Fin P.w) (hidx : P.n ≤ s.idx)
      (hj : s.workers j = .idle) :
      PoolStep P s
        { s with workers := Function.update s.workers j .done }

/-- States reachable by the pool from its initial state. -/
inductive Reach (P : PoolParams) : PoolState P → Prop where
  | init : Reach P (initState P)
  | step {s t : PoolState P} : Reach P s → PoolStep P s t → Reach P t

/-- Number of slot computations in flight: workers that have claimed a slot
and whose computation has not yet settled. -/
def inFlight {P : PoolParams} (s : PoolState P) : Nat :=
  (Finset.univ.filter fun j => (s.workers j).isRunning).card

/-- Every worker task has returned, i.e. Promise.all(workers) resolves. -/
def allDone {P : PoolParams} (s : PoolState P) : Prop :=
  ∀ j, s.workers j = .done

/-- Inductive invariant of the pool: the cursor never passes the length;
running slots are claimed (below the cursor) and held by at most one worker;
a claimed slot is either held in flight (unwritten) or settled exactly once
with its predetermined settlement; an unclaimed slot is untouched; a worker
can only have exited after the cursor was exhausted. -/
structure Inv (P : PoolParams) (s : PoolState P) : Prop where
  idx_le : s.idx ≤ P.n
  run_lt : ∀ j i, s.workers j = .running i → (i : Nat) < s.idx
  run_uniq : ∀ j₁ j₂ i, s.workers j₁ = .running i → s.workers j₂ = .running i → j₁ = j₂
  claimed : ∀ i : Fin P.n, (i : Nat) < s.idx →
      ((∃ j, s.workers j = .running i) ∧ s.results i = none ∧ s.writes i = 0)
    ∨ ((∀ j, s.workers j ≠ .running i) ∧ s.results i = some (P.settleAt i) ∧ s.writes i = 1)
  unclaimed : ∀ i : Fin P.n, s.idx ≤ (i : Nat) →
      (∀ j, s.workers j ≠ .running i) ∧ s.results i = none ∧ s.writes i = 0
  done_idx : ∀ j, s.workers j = .done → P.n ≤ s.idx

/-- Example batch for exercising the factory-mode pool: the first factory
throws synchronously, the second returns a promise that fulfils. -/
def exItems3 : List BatchItem :=
  [.factoryItem (.fthrows (.jsStr "boom")), .factoryItem (.freturns (.fulfilled (.jsNum 7)))]

/-- Pool parameters for the factory-mode example, concurrency 1. -/
def exP3 : PoolParams :=
  ⟨exItems3, 1⟩

/-- The single worker of the factory-mode example pool. -/
def exJ3 : Fin exP3.w :=
  ⟨0, by decide⟩

/-- Slot 0 of the factory-mode example. -/
def exA0 : Fin exP3.n :=
  ⟨0, by decide⟩

/-- Slot 1 of the factory-mode example. -/
def exA1 : Fin exP3.n :=
  ⟨1, by decide⟩

/-- Trace of the factory-mode example: initial state. -/
def exS0 : PoolState exP3 :=
  initState exP3

/-- After the worker claims slot 0. -/
def exS1 : PoolState exP3 :=
  { exS0 with
    idx := exS0.idx + 1
    workers := Function.update exS0.workers exJ3 (.running ⟨exS0.idx, by decide⟩) }

/-- After slot 0's computation settles. -/
def exS2 : PoolState exP3 :=
  { exS1 with
    workers := Function.update exS1.workers exJ3 .idle
    results := Function.update exS1.results exA0 (some (exP3.settleAt exA0))
    writes := Function.update exS1.writes exA0 (exS1.writes exA0 + 1) }

/-- After the worker claims slot 1. -/
def exS3 : PoolState exP3 :=
  { exS2 with
    idx := exS2.idx + 1
    workers := Function.update exS2.workers exJ3 (.running ⟨exS2.idx, by decide⟩) }

/-- After slot 1's computation settles. -/
def exS4 : PoolState exP3 :=
  { exS3 with
    workers := Function.update exS3.workers exJ3 .idle
    results := Function.update exS3.results exA1 (some (exP3.settleAt exA1))
    writes := Function.update exS3.writes exA1 (exS3.writes exA1 + 1) }

/-- After the worker exits: the terminal state of the example run. -/
def exS5 : PoolState exP3 :=
  { exS4 with workers := Function.update exS4.workers exJ3 .done }

/-- Example batch of pre-started promises (one rejecting, one fulfilling a
falsy value). -/
def exItems5 : List BatchItem :=
  [.promiseItem (.rejected (.jsStr "bad")), .promiseItem (.fulfilled (.jsBool false))]

/-- Pool parameters for the pre-started example, concurrency 1 (the general
worker-pool path). -/
def exP5 : PoolParams :=
  ⟨exItems5, 1⟩

/-- The single worker of the pre-started example pool. -/
def exJ5 : Fin exP5.w :=
  ⟨0, by decide⟩

/-- Slot 0 of the pre-started example. -/
def exB0 : Fin exP5.n :=
  ⟨0, by decide⟩

/-- Slot 1 of the pre-started example. -/
def exB1 : Fin exP5.n :=
  ⟨1, by decide⟩

/-- Trace of the pre-started example: initial state. -/
def exT0 : PoolState exP5 :=
  initState exP5

/-- After the worker claims slot 0. -/
def exT1 : PoolState exP5 :=
  { exT0 with
    idx := exT0.idx + 1
    workers := Function.update exT0.workers exJ5 (.running ⟨exT0.idx, by decide⟩) }

/-- After slot 0's promise settles. -/
def exT2 : PoolState exP5 :=
  { exT1 with
    workers := Function.update exT1.workers exJ5 .idle
    results := Function.update exT1.results exB0 (some (exP5.settleAt exB0))
    writes := Function.update exT1.writes exB0 (exT1.writes exB0 + 1) }

/-- After the worker claims slot 1. -/
def exT3 : PoolState exP5 :=
  { exT2 with
    idx := exT2.idx + 1
    workers := Function.update exT2.workers exJ5 (.running ⟨exT2.idx, by decide⟩) }

/-- After slot 1's promise settles. -/
def exT4 : PoolState exP5 :=
  { exT3 with
    workers := Function.update exT3.workers exJ5 .idle
    results := Function.update exT3.results exB1 (some (exP5.settleAt exB1))
    writes := Function.update exT3.writes exB1 (exT3.writes exB1 + 1) }

/-- After the worker exits: terminal state of the pre-started example. -/
def exT5 : PoolState exP5 :=
  { exT4 with workers := Function.update exT4.workers exJ5 .done }

/-- Example factory-mode batch for the concurrency-bound claim. -/
def exItems4 : List BatchItem :=
  [.factoryItem (.freturns (.fulfilled (.jsNum 1))),
   .factoryItem (.freturns (.fulfilled (.jsNum 2)))]

/-- Pool parameters for the concurrency-bound example, concurrency 1. -/
def exP4 : PoolParams :=
  ⟨exItems4, 1⟩

/-- Example batch mixing deliberately falsy successes with a rejection. -/
def exItems1 : List BatchItem :=
  [.promiseItem (.fulfilled (.jsNum 0)), .promiseItem (.fulfilled (.jsStr "")),
   .promiseItem (.fulfilled (.jsBool false)), .promiseItem (.fulfilled .jsNull),
   .promiseItem (.rejected (.jsStr "oops"))]

/-- Example wrap-all error class carrying no discriminant tag. -/
def exWrapAll : ErrCtor :=
  ⟨"WrapAll", none⟩

theorem inv_init (P : PoolParams) : Inv P (initState P) := by
  refine ⟨Nat.zero_le _, ?_, ?_, ?_, ?_, ?_⟩
  · intro j i h
    simp [initState] at h
  · intro j₁ j₂ i h₁ h₂
    simp [initState] at h₁
  · intro i hi
    exact absurd hi (Nat.not_lt_zero _)
  · intro i _
    refine ⟨?_, rfl, rfl⟩
    intro j h
    simp [initState] at h
  · intro j h
    simp [initState] at h

theorem inv_step {P : PoolParams} {s t : PoolState P} (hInv : Inv P s)
    (hstep : PoolStep P s t) : Inv P t := by
  cases hstep with
  | claim j hidx hj =>
      refine ⟨hidx, ?_, ?_, ?_, ?_, ?_⟩ <;> dsimp only
      · intro j' i h
        by_cases hjj : j' = j
        · subst hjj
          rw [Function.update_same] at h
          cases h
          exact Nat.lt_succ_self _
        · rw [Function.update_noteq hjj] at h
          exact Nat.lt_succ_of_lt (hInv.run_lt j' i h)
      · intro j₁ j₂ i h₁ h₂
        by_cases h₁j : j₁ = j <;> by_cases h₂j : j₂ = j
        · exact h₁j.trans h₂j.symm
        · subst h₁j
          rw [Function.update_same] at h₁
          rw [Function.update_noteq h₂j] at h₂
          cases h₁
          exact absurd (hInv.run_lt j₂ _ h₂) (by simp)
        · subst h₂j
          rw [Function.update_same] at h₂
          rw [Function.update_noteq h₁j] at h₁
          cases h₂
          exact absurd (hInv.run_lt j₁ _ h₁) (by simp)
        · rw [Function.update_noteq h₁j] at h₁
          rw [Function.update_noteq h₂j] at h₂
          exact hInv.run_uniq j₁ j₂ i h₁ h₂
      · intro i hi
        by_cases hival : (i : Nat) = s.idx
        · left
          obtain ⟨hno, hres, hw⟩ := hInv.unclaimed i (le_of_eq hival.symm)
          refine ⟨⟨j, ?_⟩, hres, hw⟩
          rw [Function.update_same]
          congr 1
          exact Fin.ext hival.symm
        · have hi' : (i : Nat) < s.idx := by omega
          rcases hInv.claimed i hi' with ⟨⟨j', hj'⟩, hres, hw⟩ | ⟨hno, hres, hw⟩
          · left
            have hj'j : j' ≠ j := fun hh => by
              rw [hh, hj] at hj'
              cases hj'
            exact ⟨⟨j', by rw [Function.update_noteq hj'j]; exact hj'⟩, hres, hw⟩
          · right
            refine ⟨?_, hres, hw⟩
            intro j'' h
            by_cases hjj : j'' = j
            · subst hjj
              rw [Function.update_same] at h
              cases h
              exact hival rfl
            · rw [Function.update_noteq hjj] at h
              exact hno j'' h
      · intro i hi
        have hi' : s.idx ≤ (i : Nat) := by omega
        obtain ⟨hno, hres, hw⟩ := hInv.unclaimed i hi'
        refine ⟨?_, hres, hw⟩
        intro j'' h
        by_cases hjj : j'' = j
        · subst hjj
          rw [Function.update_same] at h
          cases h
          dsimp only at hi
          omega
        · rw [Function.update_noteq hjj] at h
          exact hno j'' h
      · intro j' h
        by_cases hjj : j' = j
        · subst hjj
          rw [Function.update_same] at h
          cases h
        · rw [Function.update_noteq hjj] at h
          exact Nat.le_succ_of_le (hInv.done_idx j' h)
  | finish j i hj =>
      have hi_lt : (i : Nat) < s.idx := hInv.run_lt j i hj
      have hleft := hInv.claimed i hi_lt
      rcases hleft with ⟨⟨j', hj'⟩, hresnone, hw0⟩ | ⟨hno, _, _⟩
      swap
      · exact absurd hj (hno j)
      refine ⟨hInv.idx_le, ?_, ?_, ?_, ?_, ?_⟩ <;> dsimp only
      · intro j'' i'' h
        by_cases hjj : j'' = j
        · subst hjj
          rw [Function.update_same] at h
          cases h
        · rw [Function.update_noteq hjj] at h
          exact hInv.run_lt j'' i'' h
      · intro j₁ j₂ i'' h₁ h₂
        by_cases h₁j : j₁ = j
        · subst h₁j
          rw [Function.update_same] at h₁
          cases h₁
        · by_cases h₂j : j₂ = j
          · subst h₂j
            rw [Function.update_same] at h₂
            cases h₂
          · rw [Function.update_noteq h₁j] at h₁
            rw [Function.update_noteq h₂j] at h₂
            exact hInv.run_uniq j₁ j₂ i'' h₁ h₂
      · intro i' hi'
        by_cases hii : i' = i
        · subst hii
          right
          refine ⟨?_, ?_, ?_⟩
          · intro j'' h
            by_cases hjj : j'' = j
            · subst hjj
              rw [Function.update_same] at h
              cases h
            · rw [Function.update_noteq hjj] at h
              exact hjj (hInv.run_uniq j'' j i' h hj)
          · rw [Function.update_same]
          · rw [Function.update_same, hw0]
        · have hres' : Function.update s.results i (some (P.settleAt i)) i' = s.results i' :=
            Function.update_noteq hii _ _
          have hw' : Function.update s.writes i (s.writes i + 1) i' = s.writes i' :=
            Function.update_noteq hii _ _
          rcases hInv.claimed i' hi' with ⟨⟨j'', hj''⟩, hres, hw⟩ | ⟨hno', hres, hw⟩
          · left
            have hj''j : j'' ≠ j := fun hh => by
              rw [hh, hj] at hj''
              cases hj''
              exact hii rfl
            refine ⟨⟨j'', ?_⟩, ?_, ?_⟩
            · rw [Function.update_noteq hj''j]
              exact hj''
            · rw [hres']
              exact hres
            · rw [hw']
              exact hw
          · right
            refine ⟨?_, ?_, ?_⟩
            · intro j'' h
              by_cases hjj : j'' = j
              · subst hjj
                rw [Function.update_same] at h
                cases h
              · rw [Function.update_noteq hjj] at h
                exact hno' j'' h
            · rw [hres']
              exact hres
            · rw [hw']
              exact hw
      · intro i' hi'
        have hii : i' ≠ i := by
          intro hh
          subst hh
          omega
        obtain ⟨hno', hres, hw⟩ := hInv.unclaimed i' hi'
        refine ⟨?_, ?_, ?_⟩
        · intro j'' h
          by_cases hjj : j'' = j
          · subst hjj
            rw [Function.update_same] at h
            cases h
          · rw [Function.update_noteq hjj] at h
            exact hno' j'' h
        · rw [Function.update_noteq hii _ _]
          exact hres
        · rw [Function.update_noteq hii _ _]
          exact hw
      · intro j'' h
        by_cases hjj : j'' = j
        · subst hjj
          rw [Function.update_same] at h
          cases h
        · rw [Function.update_noteq hjj] at h
          exact hInv.done_idx j'' h
  | exit j hidx hj =>
      refine ⟨hInv.idx_le, ?_, ?_, ?_, ?_, ?_⟩ <;> dsimp only
      · intro j'' i'' h
        by_cases hjj : j'' = j
        · subst hjj
          rw [Function.update_same] at h
          cases h
        · rw [Function.update_noteq hjj] at h
          exact hInv.run_lt j'' i'' h
      · intro j₁ j₂ i'' h₁ h₂
        by_cases h₁j : j₁ = j
        · subst h₁j
          rw [Function.update_same] at h₁
          cases h₁
        · by_cases h₂j : j₂ = j
          · subst h₂j
            rw [Function.update_same] at h₂
            cases h₂
          · rw [Function.update_noteq h₁j] at h₁
            rw [Function.update_noteq h₂j] at h₂
            exact hInv.run_uniq j₁ j₂ i'' h₁ h₂
      · intro i' hi'
        rcases hInv.claimed i' hi' with ⟨⟨j'', hj''⟩, hres, hw⟩ | ⟨hno', hres, hw⟩
        · left
          have hj''j : j'' ≠ j := fun hh => by
            rw [hh, hj] at hj''
            cases hj''
          refine ⟨⟨j'', ?_⟩, hres, hw⟩
          rw [Function.update_noteq hj''j]
          exact hj''
        · right
          refine ⟨?_, hres, hw⟩
          intro j'' h
          by_cases hjj : j'' = j
          · subst hjj
            rw [Function.update_same] at h
            cases h
          · rw [Function.update_noteq hjj] at h
            exact hno' j'' h
      · intro i' hi'
        obtain ⟨hno', hres, hw⟩ := hInv.unclaimed i' hi'
        refine ⟨?_, hres, hw⟩
        intro j'' h
        by_cases hjj : j'' = j
        · subst hjj
          rw [Function.update_same] at h
          cases h
        · rw [Function.update_noteq hjj] at h
          exact hno' j'' h
      · intro j'' h
        by_cases hjj : j'' = j
        · exact hidx
        · rw [Function.update_noteq hjj] at h
          exact hInv.done_idx j'' h

theorem reach_inv {P : PoolParams} {s : PoolState P} (h : Reach P s) : Inv P s := by
  induction h with
  | init => exact inv_init P
  | step _ hstep ih => exact inv_step ih hstep

theorem workerCount_pos (c : Int) {len : Nat} (h : 0 < len) : 0 < workerCount c len := by
  unfold workerCount
  split <;> omega

/-- In any complete run of the pool (every worker task returned), every
slot holds its predetermined settlement and was written exactly once. -/
theorem terminal_results {P : PoolParams} {s : PoolState P} (h : Reach P s)
    (hd : allDone s) :
    ∀ i : Fin P.n, s.results i = some (P.settleAt i) ∧ s.writes i = 1 := by
  intro i
  have hInv := reach_inv h
  have hwpos : 0 < P.w := workerCount_pos P.concurrency i.pos
  obtain ⟨j⟩ := Fin.pos_iff_nonempty.mp hwpos
  have hidx : P.n ≤ s.idx := hInv.done_idx j (hd j)
  have hi : (i : Nat) < s.idx := lt_of_lt_of_le i.isLt hidx
  rcases hInv.claimed i hi with ⟨⟨j', hj'⟩, _, _⟩ | ⟨_, hres, hw1⟩
  · rw [hd j'] at hj'
    cases hj'
  · exact ⟨hres, hw1⟩

theorem exReach3 : Reach exP3 exS5 :=
  Reach.step
    (Reach.step
      (Reach.step
        (Reach.step
          (Reach.step Reach.init (PoolStep.claim exS0 exJ3 (by decide) (by decide)))
          (PoolStep.finish exS1 exJ3 exA0 (by decide)))
        (PoolStep.claim exS2 exJ3 (by decide) (by decide)))
      (PoolStep.finish exS3 exJ3 exA1 (by decide)))
    (PoolStep.exit exS4 exJ3 (by decide) (by decide))

theorem exReach5 : Reach exP5 exT5 :=
  Reach.step
    (Reach.step
      (Reach.step
        (Reach.step
          (Reach.step Reach.init (PoolStep.claim exT0 exJ5 (by decide) (by decide)))
          (PoolStep.finish exT1 exJ5 exB0 (by decide)))
        (PoolStep.claim exT2 exJ5 (by decide) (by decide)))
      (PoolStep.finish exT3 exJ5 exB1 (by decide)))
    (PoolStep.exit exT4 exJ5 (by decide) (by decide))

theorem runWithConcurrency_length (items : List BatchItem) (c : Int) :
    (runWithConcurrency items c).length = items.length := by
  by_cases h0 : items.length = 0
  · simp [runWithConcurrency, h0]
  · by_cases hfast : isFactoryMode items = false ∧ c ≤ 0
    · simp [runWithConcurrency, h0, hfast, promiseAllSettled]
    · simp [runWithConcurrency, h0, hfast]

/-- C2: for every input collection of length n (including n equal to 0),
goTryAll and goTryAllRaw return a pair of collections each of length
exactly n. -/
theorem goTryAll_length_invariant (items : List BatchItem) (concurrency : Int)
    (errorClass systemErrorClass : Option ErrCtor) :
    (goTryAll items concurrency).1.length = items.length
  ∧ (goTryAll items concurrency).2.length = items.length
  ∧ (goTryAllRaw items concurrency errorClass systemErrorClass).1.length = items.length
  ∧ (goTryAllRaw items concurrency errorClass systemErrorClass).2.length = items.length := by
  refine ⟨?_, ?_, ?_, ?_⟩ <;>
    simp [goTryAll, goTryAllRaw, settledErrors, settledValues, runWithConcurrency_length]

theorem goTryAll_length_invariant_witness :
    (goTryAll [] 0).1.length = 0
  ∧ (goTryAll exItems1 0).1.length = 5 := by
  have h1 := goTryAll_length_invariant [] 0 none none
  have h2 := goTryAll_length_invariant exItems1 0 none none
  exact ⟨h1.1, h2.1⟩

/-- C6: for a non-empty input collection, the general path launches
items.length workers when concurrency is zero or negative (both meaning
unlimited), min(concurrency, items.length) workers when concurrency is
positive, and never more workers than there are items; the pool's worker
index type has exactly that many inhabitants. -/
theorem worker_count_matches (items : List BatchItem) (c : Int) (h : items ≠ []) :
    (c ≤ 0 → workerCount c items.length = items.length)
  ∧ (0 < c → (workerCount c items.length : Int) = min c (items.length : Int))
  ∧ workerCount c items.length ≤ items.length
  ∧ Fintype.card (Fin (PoolParams.mk items c).w) = workerCount c items.length := by
  refine ⟨fun hc => ?_, fun hc => ?_, ?_, ?_⟩
  · simp [workerCount, hc]
  · rw [workerCount, if_neg (by omega)]
    omega
  · rw [workerCount]
    split <;> omega
  · simp [PoolParams.w, PoolParams.n]

theorem worker_count_matches_witness :
    workerCount (-3) 1 = 1
  ∧ (workerCount 5 1 : Int) = min 5 1
  ∧ workerCount 5 1 ≤ 1 := by
  have h1 := worker_count_matches [.promiseItem (.fulfilled (.jsNum 1))] (-3) (by simp)
  have h2 := worker_count_matches [.promiseItem (.fulfilled (.jsNum 1))] 5 (by simp)
  exact ⟨h1.1 (by norm_num), h2.2.1 (by norm_num), h2.2.2.1⟩

/-- C4: with factory-mode inputs and a positive concurrency bound k, at no
reachable instant of the batch execution are more than k slot computations
in flight. -/
theorem concurrency_bound_respected (P : PoolParams) (s : PoolState P) (k : Int)
    (hmode : isFactoryMode P.items = true) (hconc : P.concurrency = k)
    (hk : 0 < k) (hreach : Reach P s) :
    (inFlight s : Int) ≤ k := by
  subst hconc
  have h1 : inFlight s ≤ P.w := by
    calc (Finset.univ.filter fun j => (s.workers j).isRunning).card
        ≤ Finset.univ.card := Finset.card_filter_le _ _
      _ = P.w := by simp
  have h2 : (P.w : Int) ≤ P.concurrency := by
    rw [PoolParams.w, workerCount, if_neg (by omega)]
    omega
  have h3 : (inFlight s : Int) ≤ (P.w : Int) := by exact_mod_cast h1
  omega

theorem concurrency_bound_respected_witness :
    (inFlight (initState exP4) : Int) ≤ 1 :=
  concurrency_bound_respected exP4 (initState exP4) 1 rfl rfl (by norm_num) Reach.init

/-- C3: in any complete run of the batch executor, every input slot is
settled exactly once with its own computation's outcome (no slot skipped,
cancelled or retried, no failure escaping the batch); a synchronous throw
from a factory is captured into that slot's rejected settlement exactly as
a rejected promise is. -/
theorem every_slot_settled_exactly_once (P : PoolParams) (s : PoolState P)
    (hreach : Reach P s) (hdone : allDone s) :
    (∀ i : Fin P.n, s.results i = some (P.settleAt i) ∧ s.writes i = 1)
  ∧ (∀ i r, P.mode = true →
        P.items.getD i (.promiseItem (.fulfilled .undef)) = .factoryItem (.fthrows r) →
        P.settleAt i = .rejected r)
  ∧ (∀ i r, P.mode = true →
        P.items.getD i (.promiseItem (.fulfilled .undef))
          = .factoryItem (.freturns (.rejected r)) →
        P.settleAt i = .rejected r) := by
  refine ⟨terminal_results hreach hdone, ?_, ?_⟩
  · intro i r hm hi
    rw [PoolParams.settleAt, hi, hm]
    rfl
  · intro i r hm hi
    rw [PoolParams.settleAt, hi, hm]
    rfl

theorem every_slot_settled_exactly_once_witness :
    allDone exS5
  ∧ exS5.results exA0 = some (.rejected (.jsStr "boom"))
  ∧ exS5.writes exA0 = 1
  ∧ exS5.results exA1 = some (.fulfilled (.jsNum 7))
  ∧ exS5.writes exA1 = 1 := by
  have hdone : allDone exS5 := by unfold allDone; decide
  have h := every_slot_settled_exactly_once exP3 exS5 exReach3 hdone
  refine ⟨hdone, (h.1 exA0).1.trans (by rfl), (h.1 exA0).2,
    (h.1 exA1).1.trans (by rfl), (h.1 exA1).2⟩

/-- C5: on pre-started (non-factory) inputs, any complete run of the
general worker-pool path records for every slot exactly the settlement
that the Promise.allSettled fast path reports for that slot. -/
theorem fast_path_matches_pool (P : PoolParams) (s : PoolState P)
    (hmode : isFactoryMode P.items = false)
    (hreach : Reach P s) (hdone : allDone s) :
    ∀ i : Fin P.n, s.results i = (promiseAllSettled P.items)[(i : Nat)]? := by
  intro i
  have h := (terminal_results hreach hdone i).1
  rw [h, promiseAllSettled, List.getElem?_map, PoolParams.settleAt, PoolParams.mode, hmode,
    List.getElem?_eq_getElem i.isLt,
    List.getD_eq_getElem?_getD, List.getElem?_eq_getElem i.isLt]
  rfl

theorem fast_path_matches_pool_witness :
    exT5.results exB0 = (promiseAllSettled exItems5)[(0 : Nat)]?
  ∧ exT5.results exB0 = some (.rejected (.jsStr "bad"))
  ∧ exT5.results exB1 = (promiseAllSettled exItems5)[(1 : Nat)]? := by
  have h := fast_path_matches_pool exP5 exT5 rfl exReach5 (by unfold allDone; decide)
  exact ⟨h exB0, (h exB0).trans (by rfl), h exB1⟩

/-- C1 as stated is false on the code: a slot that succeeds with the value
undefined makes both output slots the absence marker, so the claimed
equivalence between an absent error and a present result fails there. -/
theorem slot_correspondence_counterexample :
    ¬ (((goTryAll [.promiseItem (.fulfilled .undef)] 0).1.getD 0 .jsNull = .undef)
       ↔ ((goTryAll [.promiseItem (.fulfilled .undef)] 0).2.getD 0 .jsNull ≠ .undef)) := by
  have h : goTryAll [.promiseItem (.fulfilled .undef)] 0 = ([.undef], [.undef]) := rfl
  rw [h]
  simp

/-- C1 amended: for every slot whose successful value is not itself the
absence marker undefined and whose rejection reason normalizes to a defined
message, output slot i's error is the absence marker iff output slot i's
value is not the absence marker, and iff input slot i's computation
succeeded — deliberately falsy successful values (0, the empty string,
false, null) included; completion order plays no role since the settlement
of each slot is fixed by its own computation alone. -/
theorem slot_correspondence (items : List BatchItem) (concurrency : Int)
    (hfulf : ∀ s ∈ runWithConcurrency items concurrency, ∀ v, s = .fulfilled v → v ≠ .undef)
    (hrej : ∀ s ∈ runWithConcurrency items concurrency, ∀ r, s = .rejected r →
        getErrorMessage r ≠ .undef) :
    ∀ i, i < items.length →
      (((goTryAll items concurrency).1.getD i .jsNull = .undef)
        ↔ ((goTryAll items concurrency).2.getD i .jsNull ≠ .undef))
    ∧ (((goTryAll items concurrency).1.getD i .jsNull = .undef)
        ↔ (∃ v, (runWithConcurrency items concurrency).getD i (.fulfilled .undef)
                  = .fulfilled v)) := by
  intro i hi
  have hlen : (runWithConcurrency items concurrency).length = items.length :=
    runWithConcurrency_length items concurrency
  have hi' : i < (runWithConcurrency items concurrency).length := by omega
  have hmem : (runWithConcurrency items concurrency)[i] ∈ runWithConcurrency items concurrency :=
    List.getElem_mem _
  have he : (goTryAll items concurrency).1.getD i .jsNull =
      (match (runWithConcurrency items concurrency)[i] with
       | .fulfilled _ => JSVal.undef
       | .rejected r => getErrorMessage r) := by
    simp [goTryAll, settledErrors, List.getD_eq_getElem?_getD, List.getElem?_map,
      List.getElem?_eq_getElem hi']
  have hv : (goTryAll items concurrency).2.getD i .jsNull =
      (match (runWithConcurrency items concurrency)[i] with
       | .fulfilled v => v
       | .rejected _ => JSVal.undef) := by
    simp [goTryAll, settledValues, List.getD_eq_getElem?_getD, List.getElem?_map,
      List.getElem?_eq_getElem hi']
  have hg : (runWithConcurrency items concurrency).getD i (.fulfilled .undef) =
      (runWithConcurrency items concurrency)[i] := by
    simp [List.getD_eq_getElem?_getD, List.getElem?_eq_getElem hi']
  rw [he, hv, hg]
  cases hs : (runWithConcurrency items concurrency)[i] with
  | fulfilled v =>
      rw [hs] at hmem
      have hne : v ≠ .undef := hfulf _ hmem v rfl
      simp [hne]
  | rejected r =>
      rw [hs] at hmem
      have hne : getErrorMessage r ≠ .undef := hrej _ hmem r rfl
      simp [hne]

theorem slot_correspondence_witness :
    ((goTryAll exItems1 0).1.getD 0 .jsNull = .undef
      ↔ (goTryAll exItems1 0).2.getD 0 .jsNull ≠ .undef)
  ∧ ((goTryAll exItems1 0).1.getD 4 .jsNull = .undef
      ↔ (goTryAll exItems1 0).2.getD 4 .jsNull ≠ .undef)
  ∧ ((goTryAll exItems1 0).1.getD 4 .jsNull = .undef
      ↔ (∃ v, (runWithConcurrency exItems1 0).getD 4 (.fulfilled .undef) = .fulfilled v)) := by
  have hrun : runWithConcurrency exItems1 0 =
      [.fulfilled (.jsNum 0), .fulfilled (.jsStr ""), .fulfilled (.jsBool false),
       .fulfilled .jsNull, .rejected (.jsStr "oops")] := rfl
  have hfulf : ∀ s ∈ runWithConcurrency exItems1 0, ∀ v, s = .fulfilled v → v ≠ .undef := by
    rw [hrun]
    intro s hs v hv
    simp only [List.mem_cons, List.not_mem_nil, or_false] at hs
    rcases hs with h | h | h | h | h <;> subst h <;> cases hv <;> simp
  have hrej : ∀ s ∈ runWithConcurrency exItems1 0, ∀ r, s = .rejected r →
      getErrorMessage r ≠ .undef := by
    rw [hrun]
    intro s hs r hr
    simp only [List.mem_cons, List.not_mem_nil, or_false] at hs
    rcases hs with h | h | h | h | h <;> subst h <;> cases hr <;> simp [getErrorMessage]
  have h := slot_correspondence exItems1 0 hfulf hrej
  exact ⟨(h 0 (by decide)).1, (h 4 (by decide)).1, (h 4 (by decide)).2⟩

/-- C7: the normalization policy holds for undefined, strings, objects with
a string message field, serializable values and circular values — but for a
caught function value JSON.stringify returns the value undefined without
throwing, so getErrorMessage returns undefined instead of the string its
own signature declares: the code diverges from the claimed always-a-string
contract at that input. -/
theorem getErrorMessage_policy_and_function_bug :
    getErrorMessage .jsFun = .undef
  ∧ getErrorMessage .undef = .jsStr "undefined"
  ∧ getErrorMessage (.jsStr "boom") = .jsStr "boom"
  ∧ getErrorMessage (.jsObj [("message", .jsStr "msg")] false) = .jsStr "msg"
  ∧ getErrorMessage (.jsObj [("code", .jsNum 5)] true) = .jsStr "[object Object]"
  ∧ (∃ s, stringifyVal (.jsObj [("code", .jsNum 5)] false) = .ok s
        ∧ getErrorMessage (.jsObj [("code", .jsNum 5)] false) = .jsStr s) :=
  ⟨rfl, rfl, rfl, rfl, rfl, _, rfl, rfl⟩

/-- C8 as stated is false on the code in both halves: a wrap-all class
applied to a string reason produces a wrapper with no cause (the original
is not preserved as cause), and with no wrap-all class a plain non-Error
object carrying a string _tag does not pass through — it is wrapped in
UnknownError. -/
theorem wrap_policy_counterexample :
    (wrapError (.jsStr "boom") (some exWrapAll) none
       ≠ construct exWrapAll "boom" (some (.jsStr "boom")))
  ∧ (wrapError (.jsObj [("_tag", .jsStr "FooError")] false) none none
       ≠ .jsObj [("_tag", .jsStr "FooError")] false) := by
  constructor
  · have h : wrapError (.jsStr "boom") (some exWrapAll) none
        = construct exWrapAll "boom" none := rfl
    rw [h]
    simp [construct]
  · have h : wrapError (.jsObj [("_tag", .jsStr "FooError")] false) none none
        = construct UnknownError "[object Object]" none := rfl
    rw [h]
    simp [construct]

/-- C8 amended: with a wrap-all errorClass every reason is wrapped in that
class — an Error reason (tagged errors included) keeps the original as its
cause, undefined becomes the message "undefined" and any other reason is
stringified into the message, both without a cause; with no errorClass, a
reason that is an Error instance carrying a string _tag passes through
unchanged, and every other reason is wrapped in the supplied system class,
defaulting to the generic tagged class UnknownError. -/
theorem wrap_policy (err : JSVal) (C S : ErrCtor) (sysOpt : Option ErrCtor) :
    (isErrorVal err = true →
        wrapError err (some C) sysOpt = construct C (errorMessage err) (some err))
  ∧ (err = .undef → wrapError err (some C) sysOpt = construct C "undefined" none)
  ∧ (isErrorVal err = false → err ≠ .undef →
        wrapError err (some C) sysOpt = construct C (jsToString err) none)
  ∧ (isTaggedErrorVal err = true →
        wrapError err none (some S) = err ∧ wrapError err none none = err)
  ∧ (isTaggedErrorVal err = false →
        (∃ m c, wrapError err none (some S) = construct S m c)
      ∧ (∃ m c, wrapError err none none = construct UnknownError m c)) := by
  refine ⟨?_, ?_, ?_, ?_, ?_⟩
  · intro h
    cases err <;> first | rfl | (simp [isErrorVal] at h)
  · intro h
    subst h
    rfl
  · intro h hne
    cases err <;> first | rfl | (simp [isErrorVal] at h)
  · intro h
    cases err with
    | jsErr name tag msg cause =>
        cases tag with
        | some t => exact ⟨rfl, rfl⟩
        | none => simp [isTaggedErrorVal] at h
    | _ => simp [isTaggedErrorVal] at h
  · intro h
    cases err with
    | undef => exact ⟨⟨"undefined", none, rfl⟩, ⟨"undefined", none, rfl⟩⟩
    | jsErr name tag msg cause =>
        cases tag with
        | some t => simp [isTaggedErrorVal] at h
        | none =>
            exact ⟨⟨msg, some (.jsErr name none msg cause), rfl⟩,
                   ⟨msg, some (.jsErr name none msg cause), rfl⟩⟩
    | jsNull => exact ⟨⟨_, none, rfl⟩, ⟨_, none, rfl⟩⟩
    | jsBool b => exact ⟨⟨_, none, rfl⟩, ⟨_, none, rfl⟩⟩
    | jsNum n => exact ⟨⟨_, none, rfl⟩, ⟨_, none, rfl⟩⟩
    | jsStr s => exact ⟨⟨_, none, rfl⟩, ⟨_, none, rfl⟩⟩
    | jsFun => exact ⟨⟨_, none, rfl⟩, ⟨_, none, rfl⟩⟩
    | jsObj fields circ => exact ⟨⟨_, none, rfl⟩, ⟨_, none, rfl⟩⟩

theorem wrap_policy_witness :
    wrapError (.jsErr "Error" none "kaput" none) (some exWrapAll) none
      = construct exWrapAll "kaput" (some (.jsErr "Error" none "kaput" none))
  ∧ wrapError (.jsErr "Foo" (some "Foo") "t" none) none none
      = .jsErr "Foo" (some "Foo") "t" none
  ∧ (∃ m c, wrapError (.jsStr "plain") none none = construct UnknownError m c) := by
  have h1 := (wrap_policy (.jsErr "Error" none "kaput" none) exWrapAll exWrapAll none).1 rfl
  have h2 := ((wrap_policy (.jsErr "Foo" (some "Foo") "t" none) exWrapAll exWrapAll
      none).2.2.2.1 rfl).2
  have h3 := ((wrap_policy (.jsStr "plain") exWrapAll exWrapAll none).2.2.2.2 rfl).2
  exact ⟨h1, h2, h3⟩

/-- C9: whenever the evaluation of goTryOr's input throws or its promise
rejects, the returned pair holds the normalized error message in the error
slot and the supplied default (resolved through resolveDefault) in the
value slot, a function default being invoked exactly once there; on every
success path the default is never invoked. -/
theorem goTryOr_failure_behaviour (input : GoTryInput) (d : DefaultValue) :
    (∀ r, (input = .fn (.throws r) ∨ input = .fn (.returnsPromise (.rejected r))
            ∨ input = .promise (.rejected r)) →
        (goTryOr input d).1.1 = getErrorMessage r
      ∧ (goTryOr input d).1.2 = resolveDefault d
      ∧ (goTryOr input d).2 = defaultInvocations d)
  ∧ (∀ v, input = .value v → (goTryOr input d).2 = 0)
  ∧ (∀ v, input = .fn (.returns v) → (goTryOr input d).2 = 0)
  ∧ (∀ v, input = .fn (.returnsPromise (.fulfilled v)) → (goTryOr input d).2 = 0)
  ∧ (∀ v, input = .promise (.fulfilled v) → (goTryOr input d).2 = 0) := by
  refine ⟨?_, ?_, ?_, ?_, ?_⟩
  · intro r hr
    rcases hr with h | h | h <;> subst h <;> exact ⟨rfl, rfl, rfl⟩
  all_goals intro v h
  all_goals subst h
  all_goals rfl

theorem goTryOr_failure_behaviour_witness :
    (goTryOr (.promise (.rejected (.jsStr "bad"))) (.thunk (.jsNum 1))).1
      = (.jsStr "bad", .jsNum 1)
  ∧ (goTryOr (.promise (.rejected (.jsStr "bad"))) (.thunk (.jsNum 1))).2 = 1
  ∧ (goTryOr (.promise (.fulfilled (.jsStr "v"))) (.thunk (.jsNum 1))).2 = 0 := by
  have h := goTryOr_failure_behaviour (.promise (.rejected (.jsStr "bad"))) (.thunk (.jsNum 1))
  have h2 := goTryOr_failure_behaviour (.promise (.fulfilled (.jsStr "v"))) (.thunk (.jsNum 1))
  obtain ⟨e1, e2, e3⟩ := h.1 (.jsStr "bad") (Or.inr (Or.inr rfl))
  exact ⟨Prod.ext e1 e2, e3, h2.2.2.2.2 _ rfl⟩

/-- C10: isFailure is the boolean negation of isSuccess, both discriminate
solely on whether the tuple's first element is undefined, success always
classifies as a success, and failure e classifies as a failure exactly when
e is not undefined — failure applied to undefined is classified as a
success. -/
theorem result_discriminants (r : JSVal × JSVal) (v e : JSVal) :
    isFailure r = !(isSuccess r)
  ∧ (isSuccess r = true ↔ r.1 = .undef)
  ∧ isSuccess r = isSuccess (r.1, v)
  ∧ isFailure r = isFailure (r.1, v)
  ∧ isSuccess (success v) = true
  ∧ (isFailure (failure e) = true ↔ e ≠ .undef)
  ∧ isSuccess (failure .undef) = true := by
  obtain ⟨a, b⟩ := r
  refine ⟨?_, ?_, rfl, rfl, rfl, ?_, rfl⟩
  · cases a <;> rfl
  · cases a <;> simp [isSuccess]
  · cases e <;> simp [isFailure, failure]

theorem result_discriminants_witness :
    isFailure (.jsStr "e", .undef) = !(isSuccess (.jsStr "e", .undef))
  ∧ isSuccess (success (.jsBool false)) = true
  ∧ isSuccess (failure .undef) = true := by
  have h1 := result_discriminants (.jsStr "e", .undef) (.jsBool false) .undef
  exact ⟨h1.1, h1.2.2.2.2.1, h1.2.2.2.2.2.2⟩

end GoGoTry
